import Mathlib

/-!
Verification of the GIFCONV conversion backends.

The repository contains several realizations of the same upload → trim →
extract audio → transcribe → render GIF pipeline.  This file gives a shallow
embedding of the two handler families the claims are about:

* `serverConvert` embeds the `/convert` handler of the local-ffmpeg variant
  (src/backend/server.js, first file, lines 97-186) together with its helpers
  `transcribeAudio` (the `transcriptionOf` function below) and the
  surrounding temporary-file management.  External effects (ffmpeg runs, the
  Google speech service, the filesystem) are supplied through a `ServerEnv`
  oracle; the handler's JSON responses are built exactly as the code builds
  them.

* `cloudConvert` embeds the `/convert` handler of the Cloudinary-backed
  variant (src/unnamed/part_003, first file, lines 138-194) with its helpers
  `uploadToCloudinary`, `getTranscription` and `createGIF`.

* `wrapLines` embeds the greedy caption word-wrap inside `createGIF` of
  src/unnamed/part_002 (lines 86-113).  Strings are modelled as lists of
  characters there, so that the split/trim loop can be reasoned about
  directly.

JS numbers are modelled as rationals, JS strings as Lean strings (UTF-16
code-unit comparison agrees with `Char` comparison on the BMP text this
application handles).
-/

/-- JSON values, as produced by the Express handlers via `res.json`. -/
inductive Json where
  | null : Json
  | bool : Bool → Json
  | num : ℚ → Json
  | str : String → Json
  | obj : List (String × Json) → Json

/-- Lookup of a key in an object's field list (first binding wins). -/
def lookupField : List (String × Json) → String → Option Json
  | [], _ => none
  | (k, v) :: rest, key => if key = k then some v else lookupField rest key

/-- Field lookup in a JSON object. Non-objects have no fields. -/
def Json.getField : Json → String → Option Json
  | Json.obj fields, key => lookupField fields key
  | _, _ => none

/-- Whether an optional JSON field is present and holds a string. -/
def isStringVal : Option Json → Bool
  | some (Json.str _) => true
  | _ => false

/-- Whether an optional JSON field is present and holds either null or a string. -/
def isNullOrStringVal : Option Json → Bool
  | some Json.null => true
  | some (Json.str _) => true
  | _ => false

/-- One ranked alternative inside a speech-recognition result. -/
structure SpeechAlternative where
  transcript : String
deriving DecidableEq

/-- One recognition result returned by the speech service. -/
structure SpeechResult where
  alternatives : List SpeechAlternative
deriving DecidableEq

/-- A successful response of `speechClient.recognize`. -/
structure SpeechResponse where
  results : List SpeechResult
deriving DecidableEq

/-- The mapping `response.results.map((result) => result.alternatives[0].transcript)`:
collects the top alternative's transcript of every result in order.  `none`
models the TypeError thrown when some result has an empty alternatives array
(`alternatives[0]` is undefined, so reading `.transcript` throws). -/
def firstTranscripts : List SpeechResult → Option (List String)
  | [] => some []
  | r :: rs =>
      match r.alternatives with
      | [] => none
      | a :: _ =>
          match firstTranscripts rs with
          | none => none
          | some ts => some (a.transcript :: ts)

/-- The transcription computed by `transcribeAudio` in src/backend/server.js
(lines 72-77): map each result to its first alternative's transcript and
`join(' ')`.  `none` models a throw inside the mapping; the same expression
appears in `getTranscription` of the Cloudinary variants. -/
def transcriptionOf (resp : SpeechResponse) : Option String :=
  (firstTranscripts resp.results).map (fun ts => String.intercalate " " ts)

/-- The spec's description of the same computation, stated independently:
the transcript of the first (top) alternative of each recognition result,
in the order the service returned the results, joined with single spaces. -/
def topAlternativesJoined (resp : SpeechResponse) : String :=
  String.intercalate " "
    (resp.results.map (fun r => (r.alternatives.headD { transcript := "" }).transcript))

/-- JS relational comparison of two strings: lexicographic by code unit. -/
def jsStrLtChars : List Char → List Char → Bool
  | [], [] => false
  | [], _ :: _ => true
  | _ :: _, [] => false
  | a :: as, b :: bs =>
      if a.toNat < b.toNat then true
      else if b.toNat < a.toNat then false
      else jsStrLtChars as bs

/-- JS `a <= b` on strings, i.e. not `b < a`. -/
def jsStrLe (a b : String) : Bool := !(jsStrLtChars b.data a.data)

/-- The validation `!startTime || !endTime || endTime <= startTime` of
src/backend/server.js line 107, applied to the raw multipart form fields:
a missing field (undefined) and the empty string are falsy; otherwise the two
raw strings are compared with JS `<=`, which on strings is lexicographic. -/
def timesInvalid (startTime endTime : Option String) : Bool :=
  match startTime, endTime with
  | some s, some e => s == "" || e == "" || jsStrLe e s
  | _, _ => true

/-- The file staged by multer for an uploaded video (`req.file`). -/
structure UploadedFile where
  filePath : String
  size : Nat
deriving DecidableEq

/-- A request to the local-ffmpeg `/convert` endpoint: optional staged upload
plus the raw `startTime` / `endTime` form fields. -/
structure ConvertRequest where
  file : Option UploadedFile
  startTime : Option String
  endTime : Option String
deriving DecidableEq

/-- Oracle for the external effects of one run of the local-ffmpeg handler:
whether each ffmpeg invocation succeeds, the state of the extracted audio
artifact, and the speech service's behaviour (`none` = the recognize call
rejects).  `now` stands for `Date.now()` when the output name is built. -/
structure ServerEnv where
  now : Nat
  extractOk : Bool
  audioWritten : Bool
  audioSize : Nat
  speech : Option SpeechResponse
  renderOk : Bool
  subtitleOk : Bool
deriving DecidableEq

/-- Which artifacts of this request exist in the /tmp scratch areas:
the multer-staged upload, the extracted audio, the temporary uncaptioned GIF
and the final output GIF. -/
structure FsState where
  upload : Bool
  audio : Bool
  tempGif : Bool
  outputGif : Bool
deriving DecidableEq

/-- Observable outcome of one request: HTTP status, JSON body, the final
scratch-area state, whether the remote speech service was invoked and whether
the subtitle overlay step ran. -/
structure Outcome where
  status : Nat
  body : Json
  fs : FsState
  calledSpeech : Bool
  addedSubtitles : Bool

/-- The guard `fs.existsSync(outputAudioPath) && fs.statSync(outputAudioPath).size > 0`
of the transcription block (src/backend/server.js line 123),
which is also exactly when the remote speech service gets invoked. -/
def audioUsable (env : ServerEnv) : Bool :=
  env.audioWritten && decide (0 < env.audioSize)

/-- The value of the `transcription` variable after the try/catch block of
src/backend/server.js lines 121-134: null unless the audio artifact exists
and is nonempty; a rejected recognize call or a throw inside the result
mapping is caught and leaves it null. -/
def serverTranscription (env : ServerEnv) : Option String :=
  if audioUsable env then
    match env.speech with
    | none => none
    | some resp => transcriptionOf resp
  else none

/-- Shallow embedding of the `/convert` handler of src/backend/server.js
(first file, lines 97-186).  Control flow follows the source statement by
statement: multer stages the upload before the handler body runs; validation
returns 400 without cleanup; a rejected `extractAudio` or GIF encode reaches
the outer catch, which unlinks the staged upload and the audio file (but not
the temporary GIF); the transcription block absorbs its own failures; on
success all three temporaries are removed.  Error bodies carry the thrown
error's message, represented here by a fixed placeholder string. -/
def serverConvert (req : ConvertRequest) (env : ServerEnv) : Outcome :=
  let fs0 : FsState :=
    { upload := req.file.isSome, audio := false, tempGif := false, outputGif := false }
  let cleaned : FsState :=
    { upload := false, audio := false, tempGif := false, outputGif := false }
  match req.file with
  | none =>
      { status := 400, body := Json.obj [("message", Json.str "No video file uploaded")],
        fs := fs0, calledSpeech := false, addedSubtitles := false }
  | some _ =>
      if timesInvalid req.startTime req.endTime then
        { status := 400, body := Json.obj [("message", Json.str "Invalid start or end time")],
          fs := fs0, calledSpeech := false, addedSubtitles := false }
      else if env.extractOk = false then
        { status := 500, body := Json.obj [("message", Json.str "ffmpeg error")],
          fs := cleaned, calledSpeech := false, addedSubtitles := false }
      else if env.renderOk = false then
        { status := 500, body := Json.obj [("message", Json.str "ffmpeg error")],
          fs := cleaned, calledSpeech := audioUsable env, addedSubtitles := false }
      else
        let successBody := Json.obj
          [("gifUrl", Json.str ("/output/output_" ++ toString env.now ++ ".gif")),
           ("transcription",
             match serverTranscription env with
             | none => Json.null
             | some t => Json.str t)]
        match serverTranscription env with
        | some t =>
            if t == "" then
              { status := 200, body := successBody,
                fs := { upload := false, audio := false, tempGif := false, outputGif := true },
                calledSpeech := audioUsable env, addedSubtitles := false }
            else if env.subtitleOk = false then
              { status := 500, body := Json.obj [("message", Json.str "ffmpeg error")],
                fs := { upload := false, audio := false, tempGif := true, outputGif := false },
                calledSpeech := audioUsable env, addedSubtitles := false }
            else
              { status := 200, body := successBody,
                fs := { upload := false, audio := false, tempGif := false, outputGif := true },
                calledSpeech := audioUsable env, addedSubtitles := true }
        | none =>
            { status := 200, body := successBody,
              fs := { upload := false, audio := false, tempGif := false, outputGif := true },
              calledSpeech := audioUsable env, addedSubtitles := false }

/-- Longest leading run of decimal digits of a character list, with the rest. -/
def takeDigits : List Char → List Char × List Char
  | [] => ([], [])
  | c :: cs =>
      if c.isDigit then
        match takeDigits cs with
        | (ds, rest) => (c :: ds, rest)
      else ([], c :: cs)

/-- Numeric value of a digit run (48 is the code of the digit zero). -/
def digitsToNat (ds : List Char) : Nat :=
  ds.foldl (fun a c => a * 10 + (c.toNat - 48)) 0

/-- JS `parseFloat` applied to a possibly-missing form field, restricted to
plain decimal notation (optional sign, digits, optional fractional part),
which is the format this application's clients produce (the UI sends
`number.toString()`).  Leading whitespace is skipped and trailing garbage is
ignored as in JS; `none` models NaN (missing field, or no digits found).
Exponent notation is not modelled. -/
def jsParseFloat : Option String → Option ℚ
  | none => none
  | some s =>
      let cs := s.data.dropWhile Char.isWhitespace
      let neg : Bool :=
        match cs with
        | c :: _ => c == '-'
        | [] => false
      let cs2 : List Char :=
        match cs with
        | c :: rest => if c == '-' || c == '+' then rest else c :: rest
        | [] => []
      let ip := takeDigits cs2
      let fp : List Char :=
        match ip.2 with
        | c :: rest => if c == '.' then (takeDigits rest).1 else []
        | [] => []
      if ip.1.isEmpty && fp.isEmpty then none
      else
        let mag : Nat := digitsToNat ip.1 * 10 ^ fp.length + digitsToNat fp
        some (mkRat (if neg then -(mag : Int) else (mag : Int)) (10 ^ fp.length))

/-- The in-memory upload of the Cloudinary variants (`req.file` under
multer.memoryStorage). -/
structure CloudFile where
  size : Nat
deriving DecidableEq

/-- A request to the Cloudinary `/convert` endpoint: optional upload and the
raw `startTime`, `endTime` and `includeSubtitles` form fields. -/
structure CloudRequest where
  file : Option CloudFile
  startTime : Option String
  endTime : Option String
  includeSubtitles : Option String
deriving DecidableEq

/-- Oracle for the external effects of one run of the Cloudinary handler:
whether `uploadToCloudinary` resolves and with which public id, whether the
fetch of the extracted-audio URL succeeds, and the speech service's behaviour
(`none` = the recognize call rejects). -/
structure CloudEnv where
  uploadOk : Bool
  publicId : String
  fetchOk : Bool
  speech : Option SpeechResponse
deriving DecidableEq

/-- The delivery URL built by `createGIF` (src/unnamed/part_003, lines 63-98)
through `cloudinary.url`.  The external library deterministically encodes the
public id and the transformation list into a URL; we model that encoding
explicitly.  A caption overlay is added only when `text` is truthy
(`if (text)`): null and the empty string produce no overlay. -/
def createGIFUrl (publicId : String) (startTime duration : ℚ) (text : Option String) : String :=
  let overlay : String :=
    match text with
    | some t => if t == "" then "" else "/l_text:Arial_24:" ++ t
    | none => ""
  "https://res.cloudinary.com/video/upload/so_" ++ toString startTime ++
    "/du_" ++ toString duration ++ overlay ++ "/" ++ publicId ++ ".gif"

/-- Size of the uploaded buffer carried by a Cloudinary request, 0 if absent. -/
def uploadSizeOf (req : CloudRequest) : Nat :=
  match req.file with
  | some f => f.size
  | none => 0

/-- The transcription obtained by the Cloudinary handler: null unless
`includeSubtitles === 'true'`; `getTranscription` (src/unnamed/part_003,
lines 101-135) catches a failed audio fetch, a rejected recognize call and a
throw inside the result mapping, returning null in each case. -/
def cloudTranscription (req : CloudRequest) (env : CloudEnv) : Option String :=
  if req.includeSubtitles == some "true" then
    if env.fetchOk = false then none
    else
      match env.speech with
      | none => none
      | some resp => transcriptionOf resp
  else none

/-- Shallow embedding of the `/convert` handler of src/unnamed/part_003
(first file, lines 138-194).  `startTime` is `parseFloat(req.body.startTime) || 0`,
`endTime` is `parseFloat(req.body.endTime)` and the request is rejected when
`isNaN(endTime) || endTime <= startTime`.  `createGIF` merely builds a
transformation URL (no failing external call on the success path).  A
rejected Cloudinary upload reaches the outer catch (500). -/
def cloudConvert (req : CloudRequest) (env : CloudEnv) : Nat × Json :=
  match req.file with
  | none => (400, Json.obj [("error", Json.str "No video file uploaded")])
  | some file =>
      let startTime : ℚ := (jsParseFloat req.startTime).getD 0
      match jsParseFloat req.endTime with
      | none => (400, Json.obj [("error", Json.str "Invalid time range")])
      | some endTime =>
          if endTime ≤ startTime then
            (400, Json.obj [("error", Json.str "Invalid time range")])
          else
            let duration := endTime - startTime
            if env.uploadOk = false then
              (500, Json.obj [("error", Json.str "Conversion failed"),
                              ("message", Json.str "Internal server error")])
            else
              let transcription : Option String := cloudTranscription req env
              (200, Json.obj
                [("success", Json.bool true),
                 ("gifUrl", Json.str (createGIFUrl env.publicId startTime duration transcription)),
                 ("transcription",
                   match transcription with
                   | none => Json.null
                   | some t => Json.str t),
                 ("metadata", Json.obj
                   [("duration", Json.num duration),
                    ("startTime", Json.num startTime),
                    ("endTime", Json.num endTime),
                    ("originalSize", Json.num file.size)])])

/-- The character the caption wrap splits on (code 32, an ASCII space). -/
def spaceChar : Char := Char.ofNat 32

/-- JS `text.split(' ')` on a string modelled as a list of characters:
splitting the empty string gives one empty piece, and adjacent separators
yield empty pieces, exactly as in JS. -/
def splitSp : List Char → List (List Char)
  | [] => [[]]
  | c :: cs =>
      if c = spaceChar then [] :: splitSp cs
      else
        match splitSp cs with
        | w :: ws => (c :: w) :: ws
        | [] => [[c]]

/-- The ECMAScript whitespace set stripped by `String.prototype.trim`
(the WhiteSpace and LineTerminator productions): TAB, LF, VT, FF, CR, the
space, NBSP, the Unicode space separators U+1680, U+2000-U+200A, U+202F,
U+205F and U+3000, the line separators U+2028 and U+2029, and the byte
order mark U+FEFF. -/
def jsWhitespace (c : Char) : Bool :=
  c.toNat == 0x9 || c.toNat == 0xA || c.toNat == 0xB || c.toNat == 0xC ||
    c.toNat == 0xD || c.toNat == 0x20 || c.toNat == 0xA0 || c.toNat == 0x1680 ||
    (decide (0x2000 ≤ c.toNat) && decide (c.toNat ≤ 0x200A)) ||
    c.toNat == 0x2028 || c.toNat == 0x2029 || c.toNat == 0x202F ||
    c.toNat == 0x205F || c.toNat == 0x3000 || c.toNat == 0xFEFF

/-- JS `String.prototype.trim`: drop ECMAScript whitespace from both ends. -/
def jsTrim (l : List Char) : List Char :=
  ((l.dropWhile jsWhitespace).reverse.dropWhile jsWhitespace).reverse

/-- One iteration of the `words.forEach(...)` loop of `createGIF` in
src/unnamed/part_002 (lines 92-99).  The state is (lines, currentLine); the
line limit is 30 characters, counted on `currentLine + word` where
`currentLine` still carries its trailing space. -/
def wrapStep (st : List (List Char) × List Char) (word : List Char) :
    List (List Char) × List Char :=
  if 30 < (st.2 ++ word).length then
    (st.1 ++ [jsTrim st.2], word ++ [spaceChar])
  else
    (st.1, st.2 ++ word ++ [spaceChar])

/-- The caption word-wrap of `createGIF` in src/unnamed/part_002
(lines 86-100): split the text on spaces, run the greedy loop, then push the
final `currentLine.trim()`. -/
def wrapLines (text : List Char) : List (List Char) :=
  ((splitSp text).foldl wrapStep ([], [])).1 ++
    [jsTrim ((splitSp text).foldl wrapStep ([], [])).2]

/-- The nonempty space-separated words of a character list. -/
def lwords (l : List Char) : List (List Char) :=
  (splitSp l).filter (fun w => !w.isEmpty)

/-- All words read across a list of lines, in order. -/
def wordsOfLines (ls : List (List Char)) : List (List Char) :=
  ls.foldr (fun l acc => lwords l ++ acc) []

/-- The shape of `currentLine` in the wrap loop: every accumulated word is
followed by one space. -/
def joinSp : List (List Char) → List Char
  | [] => []
  | w :: g => w ++ spaceChar :: joinSp g

/-- A produced line is acceptable for the wrap claim: it fits in the limit,
or it is one of the original words (necessarily space-free) that alone
exceeds the limit. -/
def okLine (text l : List Char) : Prop :=
  l.length ≤ 30 ∨ (l ∈ splitSp text ∧ spaceChar ∉ l ∧ 30 < l.length)

instance instDecidableOkLine (text l : List Char) : Decidable (okLine text l) := by
  unfold okLine
  infer_instance

theorem splitSp_ne_nil (l : List Char) : splitSp l ≠ [] := by
  cases l with
  | nil => simp [splitSp]
  | cons c cs =>
      simp only [splitSp]
      split
      · simp
      · split <;> simp

theorem splitSp_cons_space (cs : List Char) :
    splitSp (spaceChar :: cs) = [] :: splitSp cs := by
  simp [splitSp]

theorem splitSp_cons_ne (c : Char) (cs w : List Char) (ws : List (List Char))
    (hc : ¬ c = spaceChar) (h : splitSp cs = w :: ws) :
    splitSp (c :: cs) = (c :: w) :: ws := by
  simp [splitSp, hc, h]

theorem splitSp_append_space_cons (x t : List Char) :
    splitSp (x ++ spaceChar :: t) = splitSp x ++ splitSp t := by
  induction x with
  | nil => simp [splitSp]
  | cons c x ih =>
      by_cases hc : c = spaceChar
      · subst hc
        simp only [List.cons_append, splitSp_cons_space, ih]
      · obtain ⟨w, ws, hws⟩ : ∃ w ws, splitSp x = w :: ws := by
          cases h : splitSp x with
          | nil => exact absurd h (splitSp_ne_nil x)
          | cons w ws => exact ⟨w, ws, rfl⟩
        have h1 : splitSp (x ++ spaceChar :: t) = w :: (ws ++ splitSp t) := by
          rw [ih, hws]
          simp
        rw [List.cons_append, splitSp_cons_ne c _ w (ws ++ splitSp t) hc h1,
          splitSp_cons_ne c x w ws hc hws]
        simp

theorem splitSp_of_no_space (w : List Char) (h : spaceChar ∉ w) : splitSp w = [w] := by
  induction w with
  | nil => simp [splitSp]
  | cons c cs ih =>
      have hc : ¬ c = spaceChar := by
        intro hc
        exact h (hc ▸ List.mem_cons_self c cs)
      have hcs : spaceChar ∉ cs := fun hm => h (List.mem_cons_of_mem c hm)
      exact splitSp_cons_ne c cs cs [] hc (ih hcs)

theorem no_space_of_mem_splitSp (l : List Char) :
    ∀ w ∈ splitSp l, spaceChar ∉ w := by
  induction l with
  | nil =>
      intro w hw
      simp [splitSp] at hw
      simp [hw]
  | cons c cs ih =>
      intro w hw
      by_cases hc : c = spaceChar
      · subst hc
        rw [splitSp_cons_space] at hw
        rcases List.mem_cons.mp hw with h | h
        · simp [h]
        · exact ih w h
      · obtain ⟨w0, ws, hws⟩ : ∃ w0 ws, splitSp cs = w0 :: ws := by
          cases h : splitSp cs with
          | nil => exact absurd h (splitSp_ne_nil cs)
          | cons w0 ws => exact ⟨w0, ws, rfl⟩
        rw [splitSp_cons_ne c cs w0 ws hc hws] at hw
        rcases List.mem_cons.mp hw with h | h
        · subst h
          intro hmem
          rcases List.mem_cons.mp hmem with h | h
          · exact hc h.symm
          · exact ih w0 (hws ▸ List.mem_cons_self w0 ws) h
        · exact ih w (hws ▸ List.mem_cons_of_mem w0 h)

theorem mem_of_mem_splitSp (l : List Char) :
    ∀ w ∈ splitSp l, ∀ c ∈ w, c ∈ l := by
  induction l with
  | nil =>
      intro w hw c hc
      simp [splitSp] at hw
      subst hw
      simp at hc
  | cons a cs ih =>
      intro w hw c hc
      by_cases ha : a = spaceChar
      · subst ha
        rw [splitSp_cons_space] at hw
        rcases List.mem_cons.mp hw with h | h
        · subst h
          simp at hc
        · exact List.mem_cons_of_mem spaceChar (ih w h c hc)
      · obtain ⟨w0, ws, hws⟩ : ∃ w0 ws, splitSp cs = w0 :: ws := by
          cases h : splitSp cs with
          | nil => exact absurd h (splitSp_ne_nil cs)
          | cons w0 ws => exact ⟨w0, ws, rfl⟩
        rw [splitSp_cons_ne a cs w0 ws ha hws] at hw
        rcases List.mem_cons.mp hw with h | h
        · subst h
          rcases List.mem_cons.mp hc with h | h
          · exact h ▸ List.mem_cons_self a cs
          · exact List.mem_cons_of_mem a
              (ih w0 (hws ▸ List.mem_cons_self w0 ws) c h)
        · exact List.mem_cons_of_mem a (ih w (hws ▸ List.mem_cons_of_mem w0 h) c hc)

theorem length_dropWhile_le {α : Type} (p : α → Bool) (l : List α) :
    (l.dropWhile p).length ≤ l.length := by
  induction l with
  | nil => simp
  | cons a l ih =>
      by_cases h : p a
      · rw [List.dropWhile_cons, if_pos h]
        exact Nat.le_trans ih (Nat.le_succ _)
      · rw [List.dropWhile_cons, if_neg h]

theorem mem_of_mem_dropWhile {α : Type} (p : α → Bool) (l : List α) :
    ∀ a ∈ l.dropWhile p, a ∈ l := by
  induction l with
  | nil => simp
  | cons b l ih =>
      intro a ha
      by_cases h : p b
      · rw [List.dropWhile_cons, if_pos h] at ha
        exact List.mem_cons_of_mem b (ih a ha)
      · rw [List.dropWhile_cons, if_neg h] at ha
        exact ha

theorem mem_of_mem_takeWhile {α : Type} (p : α → Bool) (l : List α) :
    ∀ a ∈ l.takeWhile p, a ∈ l := by
  induction l with
  | nil => simp
  | cons b l ih =>
      intro a ha
      by_cases h : p b
      · rw [List.takeWhile_cons, if_pos h] at ha
        rcases List.mem_cons.mp ha with h1 | h1
        · exact h1 ▸ List.mem_cons_self b l
        · exact List.mem_cons_of_mem b (ih a h1)
      · rw [List.takeWhile_cons, if_neg h] at ha
        simp at ha

theorem mem_takeWhile_pred {α : Type} (p : α → Bool) (l : List α) :
    ∀ a ∈ l.takeWhile p, p a = true := by
  induction l with
  | nil => simp
  | cons b l ih =>
      intro a ha
      by_cases h : p b
      · rw [List.takeWhile_cons, if_pos h] at ha
        rcases List.mem_cons.mp ha with h1 | h1
        · exact h1 ▸ h
        · exact ih a h1
      · rw [List.takeWhile_cons, if_neg h] at ha
        simp at ha

theorem dropWhile_eq_self_of_forall {α : Type} (p : α → Bool) (l : List α)
    (h : ∀ a ∈ l, p a = false) : l.dropWhile p = l := by
  cases l with
  | nil => rfl
  | cons b l =>
      rw [List.dropWhile_cons, if_neg]
      simp [h b (List.mem_cons_self b l)]

theorem spaceChar_jsWhitespace : jsWhitespace spaceChar = true := by decide

theorem jsTrim_append_space_of_nonWs (w : List Char)
    (h : ∀ c ∈ w, jsWhitespace c = false) : jsTrim (w ++ [spaceChar]) = w := by
  cases w with
  | nil =>
      show jsTrim [spaceChar] = []
      unfold jsTrim
      rw [List.dropWhile_cons, if_pos spaceChar_jsWhitespace]
      rfl
  | cons c cs =>
      have hc : jsWhitespace c = false := h c (List.mem_cons_self c cs)
      have hdrop1 : ((c :: cs) ++ [spaceChar]).dropWhile jsWhitespace
          = (c :: cs) ++ [spaceChar] := by
        rw [List.cons_append, List.dropWhile_cons, if_neg]
        simp [hc]
      have hrev : ((c :: cs) ++ [spaceChar]).reverse = spaceChar :: (c :: cs).reverse := by
        simp
      have hdrop2 : (spaceChar :: (c :: cs).reverse).dropWhile jsWhitespace
          = (c :: cs).reverse := by
        rw [List.dropWhile_cons, if_pos spaceChar_jsWhitespace]
        exact dropWhile_eq_self_of_forall _ _ (fun a ha => h a (List.mem_reverse.mp ha))
      unfold jsTrim
      rw [hdrop1, hrev, hdrop2, List.reverse_reverse]

theorem jsTrim_append_space (x : List Char) : jsTrim (x ++ [spaceChar]) = jsTrim x := by
  by_cases hx : x.dropWhile jsWhitespace = []
  · have h1 : (x ++ [spaceChar]).dropWhile jsWhitespace = [] := by
      rw [List.dropWhile_append, hx]
      simp [List.dropWhile_cons, spaceChar_jsWhitespace]
    unfold jsTrim
    rw [h1, hx]
  · have h1 : (x ++ [spaceChar]).dropWhile jsWhitespace
        = x.dropWhile jsWhitespace ++ [spaceChar] := by
      rw [List.dropWhile_append]
      simp [List.isEmpty_iff, hx]
    unfold jsTrim
    rw [h1]
    have h2 : (x.dropWhile jsWhitespace ++ [spaceChar]).reverse
        = spaceChar :: (x.dropWhile jsWhitespace).reverse := by
      simp
    rw [h2, List.dropWhile_cons, if_pos spaceChar_jsWhitespace]

theorem jsTrim_length_le (l : List Char) : (jsTrim l).length ≤ l.length := by
  unfold jsTrim
  rw [List.length_reverse]
  have h1 := length_dropWhile_le jsWhitespace (l.dropWhile jsWhitespace).reverse
  rw [List.length_reverse] at h1
  exact Nat.le_trans h1 (length_dropWhile_le jsWhitespace l)

theorem mem_of_mem_jsTrim (l : List Char) : ∀ c ∈ jsTrim l, c ∈ l := by
  intro c hc
  unfold jsTrim at hc
  rw [List.mem_reverse] at hc
  have h2 := mem_of_mem_dropWhile _ _ c hc
  rw [List.mem_reverse] at h2
  exact mem_of_mem_dropWhile _ _ c h2

theorem lwords_cons_space (cs : List Char) : lwords (spaceChar :: cs) = lwords cs := by
  unfold lwords
  rw [splitSp_cons_space]
  simp [List.filter_cons]

theorem lwords_append_space (x : List Char) : lwords (x ++ [spaceChar]) = lwords x := by
  unfold lwords
  have h : x ++ [spaceChar] = x ++ spaceChar :: ([] : List Char) := rfl
  rw [h, splitSp_append_space_cons, List.filter_append]
  simp [splitSp]

theorem lwords_dropWhile (x : List Char)
    (h : ∀ c ∈ x, jsWhitespace c = true → c = spaceChar) :
    lwords (x.dropWhile jsWhitespace) = lwords x := by
  induction x with
  | nil => rfl
  | cons c cs ih =>
      by_cases hw : jsWhitespace c
      · have hc : c = spaceChar := h c (List.mem_cons_self c cs) hw
        subst hc
        rw [List.dropWhile_cons, if_pos hw, lwords_cons_space]
        exact ih (fun a ha hws => h a (List.mem_cons_of_mem _ ha) hws)
      · rw [List.dropWhile_cons, if_neg hw]

theorem lwords_append_replicate (k : Nat) :
    ∀ x, lwords (x ++ List.replicate k spaceChar) = lwords x := by
  induction k with
  | zero => intro x; simp
  | succ k ih =>
      intro x
      have h : x ++ List.replicate (k + 1) spaceChar
          = (x ++ [spaceChar]) ++ List.replicate k spaceChar := by
        rw [List.replicate_succ]
        simp
      rw [h, ih (x ++ [spaceChar]), lwords_append_space]

theorem lwords_jsTrim (x : List Char)
    (h : ∀ c ∈ x, jsWhitespace c = true → c = spaceChar) :
    lwords (jsTrim x) = lwords x := by
  have hy : lwords (x.dropWhile jsWhitespace) = lwords x := lwords_dropWhile x h
  have hmemy : ∀ c ∈ x.dropWhile jsWhitespace, c ∈ x :=
    fun c hc => mem_of_mem_dropWhile _ _ c hc
  have h1 : ((x.dropWhile jsWhitespace).reverse.dropWhile jsWhitespace).reverse
      ++ ((x.dropWhile jsWhitespace).reverse.takeWhile jsWhitespace).reverse
      = x.dropWhile jsWhitespace := by
    rw [← List.reverse_append, List.takeWhile_append_dropWhile, List.reverse_reverse]
  have hT : ∀ c ∈ ((x.dropWhile jsWhitespace).reverse.takeWhile jsWhitespace).reverse,
      c = spaceChar := by
    intro c hc
    rw [List.mem_reverse] at hc
    have hws := mem_takeWhile_pred _ _ c hc
    have hcy : c ∈ x.dropWhile jsWhitespace :=
      List.mem_reverse.mp (mem_of_mem_takeWhile _ _ c hc)
    exact h c (hmemy c hcy) hws
  have hrep := List.eq_replicate_of_mem hT
  have h2 : lwords (((x.dropWhile jsWhitespace).reverse.dropWhile jsWhitespace).reverse
      ++ ((x.dropWhile jsWhitespace).reverse.takeWhile jsWhitespace).reverse)
      = lwords (((x.dropWhile jsWhitespace).reverse.dropWhile jsWhitespace).reverse) := by
    rw [hrep]
    exact lwords_append_replicate _ _
  have hjs : jsTrim x
      = ((x.dropWhile jsWhitespace).reverse.dropWhile jsWhitespace).reverse := rfl
  rw [hjs, ← h2, h1, hy]

theorem joinSp_append (a b : List (List Char)) :
    joinSp (a ++ b) = joinSp a ++ joinSp b := by
  induction a with
  | nil => rfl
  | cons w a ih => simp [joinSp, ih]

theorem joinSp_single (w : List Char) : joinSp [w] = w ++ [spaceChar] := rfl

theorem mem_joinSp (g : List (List Char)) (c : Char) (hc : c ∈ joinSp g) :
    c = spaceChar ∨ ∃ w ∈ g, c ∈ w := by
  induction g with
  | nil => simp [joinSp] at hc
  | cons w g ih =>
      have hc2 : c ∈ w ++ spaceChar :: joinSp g := hc
      rcases List.mem_append.mp hc2 with h | h
      · exact Or.inr ⟨w, List.mem_cons_self w g, h⟩
      · rcases List.mem_cons.mp h with h | h
        · exact Or.inl h
        · rcases ih h with h | ⟨v, hv, hcv⟩
          · exact Or.inl h
          · exact Or.inr ⟨v, List.mem_cons_of_mem w hv, hcv⟩

theorem splitSp_joinSp (g : List (List Char)) (h : ∀ w ∈ g, spaceChar ∉ w) :
    splitSp (joinSp g) = g ++ [[]] := by
  induction g with
  | nil => rfl
  | cons w g ih =>
      have hw : spaceChar ∉ w := h w (List.mem_cons_self w g)
      have hg : ∀ v ∈ g, spaceChar ∉ v := fun v hv => h v (List.mem_cons_of_mem w hv)
      show splitSp (w ++ spaceChar :: joinSp g) = (w :: g) ++ [[]]
      rw [splitSp_append_space_cons, splitSp_of_no_space w hw, ih hg]
      simp

theorem lwords_joinSp (g : List (List Char)) (h : ∀ w ∈ g, spaceChar ∉ w) :
    lwords (joinSp g) = g.filter (fun w => !w.isEmpty) := by
  unfold lwords
  rw [splitSp_joinSp g h, List.filter_append]
  simp

theorem wordsOfLines_append (a b : List (List Char)) :
    wordsOfLines (a ++ b) = wordsOfLines a ++ wordsOfLines b := by
  induction a with
  | nil => rfl
  | cons l a ih =>
      show lwords l ++ wordsOfLines (a ++ b) = (lwords l ++ wordsOfLines a) ++ wordsOfLines b
      rw [ih, List.append_assoc]

theorem wordsOfLines_single (l : List Char) : wordsOfLines [l] = lwords l := by
  simp [wordsOfLines]

theorem word_chars_not_ws (text w : List Char)
    (htext : ∀ c ∈ text, jsWhitespace c = true → c = spaceChar)
    (hw : w ∈ splitSp text) : ∀ c ∈ w, jsWhitespace c = false := by
  intro c hc
  by_cases hws : jsWhitespace c
  · have hcx : c ∈ text := mem_of_mem_splitSp text w hw c hc
    have hc2 : c = spaceChar := htext c hcx hws
    exact absurd (hc2 ▸ hc) (no_space_of_mem_splitSp text w hw)
  · simpa using hws

theorem joinSp_only_space (g : List (List Char))
    (hg : ∀ w ∈ g, ∀ c ∈ w, jsWhitespace c = false) :
    ∀ c ∈ joinSp g, jsWhitespace c = true → c = spaceChar := by
  intro c hc hws
  rcases mem_joinSp g c hc with h | ⟨w, hw, hcw⟩
  · exact h
  · rw [hg w hw c hcw] at hws
    exact absurd hws (by simp)

theorem okLine_of_word (text w : List Char) (hw : w ∈ splitSp text) : okLine text w := by
  rcases le_or_lt w.length 30 with h | h
  · exact Or.inl h
  · exact Or.inr ⟨hw, no_space_of_mem_splitSp text w hw, h⟩

theorem wrap_aux (text : List Char)
    (htext : ∀ c ∈ text, jsWhitespace c = true → c = spaceChar) :
    ∀ ws lines g : List (List Char),
      (∀ w ∈ ws, w ∈ splitSp text) →
      (∀ w ∈ g, w ∈ splitSp text) →
      (∀ l ∈ lines, okLine text l) →
      okLine text (jsTrim (joinSp g)) →
      (∀ l ∈ (ws.foldl wrapStep (lines, joinSp g)).1, okLine text l) ∧
        okLine text (jsTrim (ws.foldl wrapStep (lines, joinSp g)).2) ∧
        ∃ gfin, (ws.foldl wrapStep (lines, joinSp g)).2 = joinSp gfin ∧
          (∀ w ∈ gfin, w ∈ splitSp text) ∧
          wordsOfLines (ws.foldl wrapStep (lines, joinSp g)).1
              ++ gfin.filter (fun w => !w.isEmpty)
            = wordsOfLines lines ++ (g ++ ws).filter (fun w => !w.isEmpty) := by
  intro ws
  induction ws with
  | nil =>
      intro lines g hws hg hlines hcur
      refine ⟨hlines, hcur, g, rfl, hg, ?_⟩
      simp
  | cons w rest ih =>
      intro lines g hws hg hlines hcur
      have hwmem : w ∈ splitSp text := hws w (List.mem_cons_self w rest)
      have hrest : ∀ v ∈ rest, v ∈ splitSp text :=
        fun v hv => hws v (List.mem_cons_of_mem w hv)
      have hwChars : ∀ c ∈ w, jsWhitespace c = false := word_chars_not_ws text w htext hwmem
      have hgWords : ∀ v ∈ g, spaceChar ∉ v :=
        fun v hv => no_space_of_mem_splitSp text v (hg v hv)
      have hgChars : ∀ v ∈ g, ∀ c ∈ v, jsWhitespace c = false :=
        fun v hv => word_chars_not_ws text v htext (hg v hv)
      have hfold : (w :: rest).foldl wrapStep (lines, joinSp g)
          = rest.foldl wrapStep (wrapStep (lines, joinSp g) w) := rfl
      by_cases hcond : 30 < ((joinSp g) ++ w).length
      · have hstep : wrapStep (lines, joinSp g) w
            = (lines ++ [jsTrim (joinSp g)], joinSp [w]) := by
          unfold wrapStep
          rw [if_pos hcond]
          rfl
        have htrimw : jsTrim (joinSp [w]) = w := by
          rw [joinSp_single]
          exact jsTrim_append_space_of_nonWs w hwChars
        have hcurNew : okLine text (jsTrim (joinSp [w])) := by
          rw [htrimw]
          exact okLine_of_word text w hwmem
        have hlinesNew : ∀ l ∈ lines ++ [jsTrim (joinSp g)], okLine text l := by
          intro l hl
          rcases List.mem_append.mp hl with h | h
          · exact hlines l h
          · rw [List.mem_singleton] at h
            exact h ▸ hcur
        obtain ⟨ha, hb, gfin, hc1, hc2, hc3⟩ :=
          ih (lines ++ [jsTrim (joinSp g)]) [w] hrest
            (by intro v hv
                rw [List.mem_singleton] at hv
                exact hv ▸ hwmem)
            hlinesNew hcurNew
        rw [hfold, hstep]
        refine ⟨ha, hb, gfin, hc1, hc2, ?_⟩
        rw [hc3, wordsOfLines_append, wordsOfLines_single,
          lwords_jsTrim (joinSp g) (joinSp_only_space g hgChars), lwords_joinSp g hgWords]
        simp [List.filter_append, List.append_assoc]
      · have hstep : wrapStep (lines, joinSp g) w = (lines, joinSp (g ++ [w])) := by
          unfold wrapStep
          rw [if_neg hcond, joinSp_append, joinSp_single]
          simp [List.append_assoc]
        have hcurNew : okLine text (jsTrim (joinSp (g ++ [w]))) := by
          have h1 : joinSp (g ++ [w]) = (joinSp g ++ w) ++ [spaceChar] := by
            rw [joinSp_append, joinSp_single]
            simp [List.append_assoc]
          rw [h1, jsTrim_append_space]
          exact Or.inl (Nat.le_trans (jsTrim_length_le _) (Nat.le_of_not_lt hcond))
        obtain ⟨ha, hb, gfin, hc1, hc2, hc3⟩ :=
          ih lines (g ++ [w]) hrest
            (by intro v hv
                rcases List.mem_append.mp hv with h | h
                · exact hg v h
                · rw [List.mem_singleton] at h
                  exact h ▸ hwmem)
            hlines hcurNew
        rw [hfold, hstep]
        refine ⟨ha, hb, gfin, hc1, hc2, ?_⟩
        rw [hc3]
        simp [List.filter_append, List.append_assoc]

/-- Claim C5 as amended: for every caption string whose only ECMAScript
whitespace is the plain space the wrap splits on (captions with other JS
whitespace can lose those characters at line edges to `trim()`, see the
counterexample), the greedy word-wrap of `createGIF` in src/unnamed/part_002
produces lines each at most 30 characters long, except for an unavoidable
line that is a single original word (space-free) exceeding the limit by
itself; and the nonempty words read across all produced lines in order are
exactly the nonempty words of the original text — no word is dropped or
duplicated. -/
theorem wrapLines_spec (text : List Char)
    (htext : ∀ c ∈ text, jsWhitespace c = true → c = spaceChar) :
    (∀ l ∈ wrapLines text, okLine text l) ∧
      wordsOfLines (wrapLines text) = lwords text := by
  obtain ⟨ha, hb, gfin, hc1, hc2, hc3⟩ :=
    wrap_aux text htext (splitSp text) [] []
      (fun w hw => hw) (by simp) (by simp) (Or.inl (by decide))
  have hjoin : (([] : List (List Char)), joinSp []) = (([] : List (List Char)), ([] : List Char)) := rfl
  rw [hjoin] at ha hb hc1 hc3
  constructor
  · intro l hl
    unfold wrapLines at hl
    rcases List.mem_append.mp hl with h | h
    · exact ha l h
    · rw [List.mem_singleton] at h
      exact h ▸ hb
  · unfold wrapLines
    rw [wordsOfLines_append, wordsOfLines_single, hc1,
      lwords_jsTrim (joinSp gfin)
        (joinSp_only_space gfin (fun v hv => word_chars_not_ws text v htext (hc2 v hv))),
      lwords_joinSp gfin (fun v hv => no_space_of_mem_splitSp text v (hc2 v hv)),
      hc3]
    simp [wordsOfLines, lwords]

/-- A concrete caption used to witness the word-wrap claim. -/
def demoCaption : List Char :=
  ("this example caption is long enough to be wrapped onto several lines").toList

/-- Witness for claim C5 at a concrete caption. -/
theorem wrapLines_spec_witness :
    (∀ c ∈ demoCaption, jsWhitespace c = true → c = spaceChar) ∧
      ((∀ l ∈ wrapLines demoCaption, okLine demoCaption l) ∧
        wordsOfLines (wrapLines demoCaption) = lwords demoCaption) :=
  ⟨by decide, wrapLines_spec demoCaption (by decide)⟩

/-- A caption consisting of the letter x followed by a vertical tab
(U+000B), a character JS trim strips but the wrap does not split on. -/
def vtCaption : List Char := ['x', Char.ofNat 11]

/-- Counterexample to claim C5 as stated: `currentLine.trim()` strips the
vertical tab U+000B (ECMAScript whitespace), so wrapping the caption
consisting of the word x-followed-by-VT produces the single line "x" — the
word has lost its trailing character, and the sequence of words read across
the produced lines differs from the original word sequence. -/
theorem wrap_trim_alters_exotic_whitespace_word :
    wrapLines vtCaption = [['x']] ∧
      wordsOfLines (wrapLines vtCaption) ≠ lwords vtCaption := by
  decide

theorem serverConvert_no_file (req : ConvertRequest) (env : ServerEnv)
    (hfile : req.file = none) :
    serverConvert req env =
      { status := 400, body := Json.obj [("message", Json.str "No video file uploaded")],
        fs := { upload := false, audio := false, tempGif := false, outputGif := false },
        calledSpeech := false, addedSubtitles := false } := by
  simp [serverConvert, hfile]

theorem serverConvert_invalid_times (req : ConvertRequest) (env : ServerEnv)
    (f : UploadedFile) (hfile : req.file = some f)
    (hvalid : timesInvalid req.startTime req.endTime = true) :
    serverConvert req env =
      { status := 400, body := Json.obj [("message", Json.str "Invalid start or end time")],
        fs := { upload := true, audio := false, tempGif := false, outputGif := false },
        calledSpeech := false, addedSubtitles := false } := by
  simp [serverConvert, hfile, hvalid]

theorem serverConvert_extract_fail (req : ConvertRequest) (env : ServerEnv)
    (f : UploadedFile) (hfile : req.file = some f)
    (hvalid : timesInvalid req.startTime req.endTime = false)
    (hextract : env.extractOk = false) :
    serverConvert req env =
      { status := 500, body := Json.obj [("message", Json.str "ffmpeg error")],
        fs := { upload := false, audio := false, tempGif := false, outputGif := false },
        calledSpeech := false, addedSubtitles := false } := by
  simp [serverConvert, hfile, hvalid, hextract]

theorem serverConvert_render_fail (req : ConvertRequest) (env : ServerEnv)
    (f : UploadedFile) (hfile : req.file = some f)
    (hvalid : timesInvalid req.startTime req.endTime = false)
    (hextract : env.extractOk = true) (hrender : env.renderOk = false) :
    serverConvert req env =
      { status := 500, body := Json.obj [("message", Json.str "ffmpeg error")],
        fs := { upload := false, audio := false, tempGif := false, outputGif := false },
        calledSpeech := audioUsable env, addedSubtitles := false } := by
  simp [serverConvert, hfile, hvalid, hextract, hrender]

theorem serverConvert_success_null (req : ConvertRequest) (env : ServerEnv)
    (f : UploadedFile) (hfile : req.file = some f)
    (hvalid : timesInvalid req.startTime req.endTime = false)
    (hextract : env.extractOk = true) (hrender : env.renderOk = true)
    (htr : serverTranscription env = none) :
    serverConvert req env =
      { status := 200,
        body := Json.obj
          [("gifUrl", Json.str ("/output/output_" ++ toString env.now ++ ".gif")),
           ("transcription", Json.null)],
        fs := { upload := false, audio := false, tempGif := false, outputGif := true },
        calledSpeech := audioUsable env, addedSubtitles := false } := by
  simp [serverConvert, hfile, hvalid, hextract, hrender, htr]

theorem serverConvert_success_empty (req : ConvertRequest) (env : ServerEnv)
    (f : UploadedFile) (hfile : req.file = some f)
    (hvalid : timesInvalid req.startTime req.endTime = false)
    (hextract : env.extractOk = true) (hrender : env.renderOk = true)
    (htr : serverTranscription env = some "") :
    serverConvert req env =
      { status := 200,
        body := Json.obj
          [("gifUrl", Json.str ("/output/output_" ++ toString env.now ++ ".gif")),
           ("transcription", Json.str "")],
        fs := { upload := false, audio := false, tempGif := false, outputGif := true },
        calledSpeech := audioUsable env, addedSubtitles := false } := by
  simp [serverConvert, hfile, hvalid, hextract, hrender, htr]

theorem serverConvert_subtitle_fail (req : ConvertRequest) (env : ServerEnv)
    (f : UploadedFile) (t : String) (hfile : req.file = some f)
    (hvalid : timesInvalid req.startTime req.endTime = false)
    (hextract : env.extractOk = true) (hrender : env.renderOk = true)
    (htr : serverTranscription env = some t) (hne : (t == "") = false)
    (hsub : env.subtitleOk = false) :
    serverConvert req env =
      { status := 500, body := Json.obj [("message", Json.str "ffmpeg error")],
        fs := { upload := false, audio := false, tempGif := true, outputGif := false },
        calledSpeech := audioUsable env, addedSubtitles := false } := by
  simp [serverConvert, hfile, hvalid, hextract, hrender, htr, hne, hsub]

theorem serverConvert_success_subtitled (req : ConvertRequest) (env : ServerEnv)
    (f : UploadedFile) (t : String) (hfile : req.file = some f)
    (hvalid : timesInvalid req.startTime req.endTime = false)
    (hextract : env.extractOk = true) (hrender : env.renderOk = true)
    (htr : serverTranscription env = some t) (hne : (t == "") = false)
    (hsub : env.subtitleOk = true) :
    serverConvert req env =
      { status := 200,
        body := Json.obj
          [("gifUrl", Json.str ("/output/output_" ++ toString env.now ++ ".gif")),
           ("transcription", Json.str t)],
        fs := { upload := false, audio := false, tempGif := false, outputGif := true },
        calledSpeech := audioUsable env, addedSubtitles := true } := by
  simp [serverConvert, hfile, hvalid, hextract, hrender, htr, hne, hsub]

theorem cloudConvert_success (req : CloudRequest) (env : CloudEnv)
    (file : CloudFile) (et : ℚ) (hfile : req.file = some file)
    (het : jsParseFloat req.endTime = some et)
    (hgt : ¬ et ≤ (jsParseFloat req.startTime).getD 0)
    (hupload : env.uploadOk = true) :
    cloudConvert req env =
      (200, Json.obj
        [("success", Json.bool true),
         ("gifUrl", Json.str (createGIFUrl env.publicId ((jsParseFloat req.startTime).getD 0)
           (et - (jsParseFloat req.startTime).getD 0) (cloudTranscription req env))),
         ("transcription",
           match cloudTranscription req env with
           | none => Json.null
           | some t => Json.str t),
         ("metadata", Json.obj
           [("duration", Json.num (et - (jsParseFloat req.startTime).getD 0)),
            ("startTime", Json.num ((jsParseFloat req.startTime).getD 0)),
            ("endTime", Json.num et),
            ("originalSize", Json.num file.size)])]) := by
  simp [cloudConvert, hfile, het, hgt, hupload]

theorem getField_gifUrl (a b c m : Json) :
    (Json.obj [("success", a), ("gifUrl", b), ("transcription", c),
      ("metadata", m)]).getField "gifUrl" = some b := rfl

theorem getField_transcription (a b c m : Json) :
    (Json.obj [("success", a), ("gifUrl", b), ("transcription", c),
      ("metadata", m)]).getField "transcription" = some c := rfl

theorem getField_metadata (a b c m : Json) :
    (Json.obj [("success", a), ("gifUrl", b), ("transcription", c),
      ("metadata", m)]).getField "metadata" = some m := rfl

/-- Claim C6: for every speech-recognition response in which each result has
at least one alternative (otherwise the mapping throws and no transcription
is produced), the transcription computed by `transcribeAudio` equals the
transcript of the first (top) alternative of each recognition result, taken
in the order the service returned the results, joined with single spaces. -/
theorem transcription_is_top_alternatives_joined (resp : SpeechResponse)
    (h : ∀ r ∈ resp.results, r.alternatives ≠ []) :
    transcriptionOf resp = some (topAlternativesJoined resp) := by
  have haux : ∀ rs : List SpeechResult, (∀ r ∈ rs, r.alternatives ≠ []) →
      firstTranscripts rs
        = some (rs.map (fun r => (r.alternatives.headD { transcript := "" }).transcript)) := by
    intro rs
    induction rs with
    | nil => intro _; rfl
    | cons r rs ih =>
        intro hr
        cases halts : r.alternatives with
        | nil => exact absurd halts (hr r (List.mem_cons_self r rs))
        | cons a alts =>
            have ih2 := ih (fun v hv => hr v (List.mem_cons_of_mem r hv))
            simp [firstTranscripts, halts, ih2]
  unfold transcriptionOf topAlternativesJoined
  rw [haux resp.results h]
  rfl

/-- A concrete speech response used in witnesses. -/
def demoSpeech : SpeechResponse :=
  { results := [{ alternatives := [{ transcript := "hello" }, { transcript := "helo" }] },
                { alternatives := [{ transcript := "world" }] }] }

/-- Witness for claim C6 at a concrete response. -/
theorem transcription_is_top_alternatives_joined_witness :
    (∀ r ∈ demoSpeech.results, r.alternatives ≠ []) ∧
      transcriptionOf demoSpeech = some (topAlternativesJoined demoSpeech) :=
  ⟨by decide, transcription_is_top_alternatives_joined demoSpeech (by decide)⟩

/-- A concrete valid request to the local-ffmpeg endpoint. -/
def reqA : ConvertRequest :=
  { file := some { filePath := "/tmp/uploads/clip", size := 1000 },
    startTime := some "2", endTime := some "5" }

/-- Environment where the speech service rejects every call. -/
def envNetworkFail : ServerEnv :=
  { now := 0, extractOk := true, audioWritten := true, audioSize := 4,
    speech := none, renderOk := true, subtitleOk := true }

/-- Environment where every stage succeeds. -/
def envGood : ServerEnv :=
  { now := 0, extractOk := true, audioWritten := true, audioSize := 4,
    speech := some demoSpeech, renderOk := true, subtitleOk := true }

/-- Claim C1: for every request that passes validation and reaches the
transcription stage, a transcription failure — missing or empty audio, a
rejected recognize call, or a malformed response (a result carrying no
alternatives) — is absorbed inside the pipeline: with a working renderer the
handler still answers 200 with `gifUrl` present and `transcription` null;
and 200 is also the status of the same request under any environment whose
ffmpeg stages all succeed (an otherwise-successful render), so the status is
unchanged. -/
theorem transcription_failure_absorbed (req : ConvertRequest) (env : ServerEnv)
    (f : UploadedFile) (hfile : req.file = some f)
    (hvalid : timesInvalid req.startTime req.endTime = false)
    (hextract : env.extractOk = true) (hrender : env.renderOk = true)
    (hfail : env.audioWritten = false ∨ env.audioSize = 0 ∨ env.speech = none ∨
      (∃ resp, env.speech = some resp ∧ transcriptionOf resp = none)) :
    ((serverConvert req env).status = 200 ∧
      isStringVal ((serverConvert req env).body.getField "gifUrl") = true ∧
      (serverConvert req env).body.getField "transcription" = some Json.null) ∧
    (∀ envg : ServerEnv, envg.extractOk = true → envg.renderOk = true →
      envg.subtitleOk = true → (serverConvert req envg).status = 200) := by
  have htr : serverTranscription env = none := by
    rcases hfail with h | h | h | ⟨resp, hresp, hnone⟩
    · simp [serverTranscription, audioUsable, h]
    · simp [serverTranscription, audioUsable, h]
    · simp [serverTranscription, h]
    · simp [serverTranscription, hresp, hnone]
  constructor
  · rw [serverConvert_success_null req env f hfile hvalid hextract hrender htr]
    exact ⟨rfl, rfl, rfl⟩
  · intro envg hg1 hg2 hg3
    cases htg : serverTranscription envg with
    | none => rw [serverConvert_success_null req envg f hfile hvalid hg1 hg2 htg]
    | some t =>
        by_cases hte : t = ""
        · subst hte
          rw [serverConvert_success_empty req envg f hfile hvalid hg1 hg2 htg]
        · have hne : (t == "") = false := by simp [hte]
          rw [serverConvert_success_subtitled req envg f t hfile hvalid hg1 hg2 htg hne hg3]

/-- Witness for claim C1: the concrete request with a rejecting speech
service still gets a 200 with a gifUrl and a null transcript, and the same
request with a working speech service also gets a 200. -/
theorem transcription_failure_absorbed_witness :
    ((serverConvert reqA envNetworkFail).status = 200 ∧
      isStringVal ((serverConvert reqA envNetworkFail).body.getField "gifUrl") = true ∧
      (serverConvert reqA envNetworkFail).body.getField "transcription" = some Json.null) ∧
      (serverConvert reqA envGood).status = 200 := by
  have h := transcription_failure_absorbed reqA envNetworkFail
    { filePath := "/tmp/uploads/clip", size := 1000 } rfl rfl rfl rfl
    (Or.inr (Or.inr (Or.inl rfl)))
  exact ⟨h.1, h.2 envGood rfl rfl rfl⟩

/-- Claim C8: if the extracted audio artifact is missing or has size zero,
the handler sets the transcript to null without invoking the remote
speech-recognition service at all, and still proceeds to rendering: with a
working renderer the response is a 200 success carrying a gifUrl. -/
theorem empty_audio_skips_speech (req : ConvertRequest) (env : ServerEnv)
    (f : UploadedFile) (hfile : req.file = some f)
    (hvalid : timesInvalid req.startTime req.endTime = false)
    (hextract : env.extractOk = true) (hrender : env.renderOk = true)
    (haudio : env.audioWritten = false ∨ env.audioSize = 0) :
    (serverConvert req env).calledSpeech = false ∧
      (serverConvert req env).status = 200 ∧
      (serverConvert req env).body.getField "transcription" = some Json.null ∧
      isStringVal ((serverConvert req env).body.getField "gifUrl") = true := by
  have hus : audioUsable env = false := by
    rcases haudio with h | h
    · simp [audioUsable, h]
    · simp [audioUsable, h]
  have htr : serverTranscription env = none := by
    simp [serverTranscription, hus]
  rw [serverConvert_success_null req env f hfile hvalid hextract hrender htr]
  exact ⟨hus, rfl, rfl, rfl⟩

/-- Environment where the audio artifact is missing after extraction. -/
def envNoAudio : ServerEnv :=
  { now := 0, extractOk := true, audioWritten := false, audioSize := 0,
    speech := some demoSpeech, renderOk := true, subtitleOk := true }

/-- Witness for claim C8 at a concrete request and environment. -/
theorem empty_audio_skips_speech_witness :
    (serverConvert reqA envNoAudio).calledSpeech = false ∧
      (serverConvert reqA envNoAudio).status = 200 ∧
      (serverConvert reqA envNoAudio).body.getField "transcription" = some Json.null ∧
      isStringVal ((serverConvert reqA envNoAudio).body.getField "gifUrl") = true :=
  empty_audio_skips_speech reqA envNoAudio
    { filePath := "/tmp/uploads/clip", size := 1000 } rfl rfl rfl rfl (Or.inl rfl)

/-- Claim C10: when the speech service succeeds but returns an empty result
list, the transcript is the empty string rather than null: the 200 success
response carries `transcription` equal to "" (not null), while no caption
overlay is rendered because the empty string is treated as an absent
caption. -/
theorem empty_results_give_empty_transcription (req : ConvertRequest) (env : ServerEnv)
    (f : UploadedFile) (resp : SpeechResponse) (hfile : req.file = some f)
    (hvalid : timesInvalid req.startTime req.endTime = false)
    (hextract : env.extractOk = true) (hrender : env.renderOk = true)
    (haw : env.audioWritten = true) (hsz : 0 < env.audioSize)
    (hsp : env.speech = some resp) (hres : resp.results = []) :
    (serverConvert req env).status = 200 ∧
      (serverConvert req env).body.getField "transcription" = some (Json.str "") ∧
      (serverConvert req env).addedSubtitles = false ∧
      isStringVal ((serverConvert req env).body.getField "gifUrl") = true := by
  have hus : audioUsable env = true := by
    unfold audioUsable
    rw [haw, Bool.true_and]
    exact decide_eq_true hsz
  have htr : serverTranscription env = some "" := by
    simp [serverTranscription, hus, hsp, transcriptionOf, hres, firstTranscripts]
    rfl
  rw [serverConvert_success_empty req env f hfile hvalid hextract hrender htr]
  exact ⟨rfl, rfl, rfl, rfl⟩

/-- A speech response with no recognition results. -/
def emptySpeech : SpeechResponse := { results := [] }

/-- Environment where recognition succeeds with an empty result list. -/
def envEmptyResults : ServerEnv :=
  { now := 0, extractOk := true, audioWritten := true, audioSize := 4,
    speech := some emptySpeech, renderOk := true, subtitleOk := true }

/-- Witness for claim C10 at a concrete request and environment. -/
theorem empty_results_give_empty_transcription_witness :
    (serverConvert reqA envEmptyResults).status = 200 ∧
      (serverConvert reqA envEmptyResults).body.getField "transcription"
        = some (Json.str "") ∧
      (serverConvert reqA envEmptyResults).addedSubtitles = false ∧
      isStringVal ((serverConvert reqA envEmptyResults).body.getField "gifUrl") = true :=
  empty_results_give_empty_transcription reqA envEmptyResults
    { filePath := "/tmp/uploads/clip", size := 1000 } emptySpeech
    rfl rfl rfl rfl rfl (by decide) rfl rfl

/-- Environment where the ffmpeg audio extraction rejects while the video
itself is still renderable (the GIF encode would succeed). -/
def envExtractFail : ServerEnv :=
  { now := 0, extractOk := false, audioWritten := false, audioSize := 0,
    speech := none, renderOk := true, subtitleOk := true }

/-- Counterexample to claim C2 as stated: in the local-ffmpeg variant a
failed audio extraction on a renderable video does not degrade to a GIF
without subtitles — the throw reaches the outer catch, the handler answers
500 and no gifUrl is returned. -/
theorem extraction_failure_fatal_counterexample :
    envExtractFail.renderOk = true ∧
      (serverConvert reqA envExtractFail).status = 500 ∧
      (serverConvert reqA envExtractFail).body.getField "gifUrl" = none :=
  ⟨rfl, rfl, rfl⟩

/-- Claim C2 as amended: in the local-ffmpeg variant audio-extraction failure
is request-fatal (500, see the counterexample); in the Cloudinary variants
the audio extraction/fetch happens inside `getTranscription` and its failure
is absorbed: the pipeline proceeds to rendering and returns a 200 success
with gifUrl present and a null transcript (a GIF without subtitles). -/
theorem cloud_extraction_failure_degrades (req : CloudRequest) (env : CloudEnv)
    (file : CloudFile) (et : ℚ) (hfile : req.file = some file)
    (het : jsParseFloat req.endTime = some et)
    (hgt : ¬ et ≤ (jsParseFloat req.startTime).getD 0)
    (hupload : env.uploadOk = true)
    (hsubs : req.includeSubtitles = some "true")
    (hfetch : env.fetchOk = false) :
    (cloudConvert req env).1 = 200 ∧
      (cloudConvert req env).2.getField "transcription" = some Json.null ∧
      isStringVal ((cloudConvert req env).2.getField "gifUrl") = true := by
  have htr : cloudTranscription req env = none := by
    simp [cloudTranscription, hsubs, hfetch]
  rw [cloudConvert_success req env file et hfile het hgt hupload]
  refine ⟨rfl, ?_, rfl⟩
  rw [getField_transcription, htr]

/-- A concrete Cloudinary request asking for subtitles. -/
def cloudReqSubs : CloudRequest :=
  { file := some { size := 1024 }, startTime := some "2", endTime := some "5",
    includeSubtitles := some "true" }

/-- Cloudinary environment where the audio fetch fails. -/
def cloudEnvFetchFail : CloudEnv :=
  { uploadOk := true, publicId := "video-uploads/abc", fetchOk := false, speech := none }

/-- Witness for the amended claim C2 at a concrete request and environment. -/
theorem cloud_extraction_failure_degrades_witness :
    (cloudConvert cloudReqSubs cloudEnvFetchFail).1 = 200 ∧
      (cloudConvert cloudReqSubs cloudEnvFetchFail).2.getField "transcription"
        = some Json.null ∧
      isStringVal ((cloudConvert cloudReqSubs cloudEnvFetchFail).2.getField "gifUrl")
        = true :=
  cloud_extraction_failure_degrades cloudReqSubs cloudEnvFetchFail
    { size := 1024 } 5 rfl (by decide) (by decide) rfl rfl rfl

/-- A request whose window is numerically valid (9 < 10) but whose raw form
strings compare the wrong way lexicographically. -/
def lexReq : ConvertRequest :=
  { file := some { filePath := "/tmp/uploads/clip9", size := 1000 },
    startTime := some "9", endTime := some "10" }

/-- Claim C3, failing input: the handler compares the raw form strings with
JS `<=`, so the numerically valid window startTime "9", endTime "10"
(9 < 10, as the jsParseFloat conjuncts show) is rejected with 400 before any
pipeline stage runs — contradicting the claim that every request carrying a
video and numeric times with endTime > startTime passes validation. -/
theorem lexicographic_validation_rejects_valid_window :
    (serverConvert lexReq envGood).status = 400 ∧
      (serverConvert lexReq envGood).body.getField "message"
        = some (Json.str "Invalid start or end time") ∧
      (serverConvert lexReq envGood).calledSpeech = false ∧
      (serverConvert lexReq envGood).fs.audio = false ∧
      (serverConvert lexReq envGood).fs.outputGif = false ∧
      jsParseFloat lexReq.startTime = some 9 ∧
      jsParseFloat lexReq.endTime = some 10 :=
  ⟨rfl, rfl, rfl, rfl, rfl, by decide, by decide⟩

/-- Environment where everything up to the subtitle overlay succeeds and the
overlay encode then rejects. -/
def envSubtitleFail : ServerEnv :=
  { now := 0, extractOk := true, audioWritten := true, audioSize := 4,
    speech := some demoSpeech, renderOk := true, subtitleOk := false }

/-- Claim C4, failing input: when the subtitle overlay step fails after the
temporary uncaptioned GIF has been written, the catch block unlinks only the
staged upload and the audio file — the temporary GIF remains in the outputs
scratch area while the handler answers 500, so a temporary file is leaked on
the error path. -/
theorem temp_gif_leaked_on_subtitle_failure :
    (serverConvert reqA envSubtitleFail).status = 500 ∧
      (serverConvert reqA envSubtitleFail).fs.tempGif = true ∧
      (serverConvert reqA envSubtitleFail).fs.upload = false ∧
      (serverConvert reqA envSubtitleFail).fs.audio = false ∧
      (serverConvert reqA envSubtitleFail).fs.outputGif = false :=
  ⟨rfl, rfl, rfl, rfl, rfl⟩

/-- Counterexample to claim C7 as stated: the local-ffmpeg variant's success
response carries only gifUrl and transcription — it has no metadata member at
all, although the claim requires every success response of the conversion
endpoint to carry one. -/
theorem server_success_lacks_metadata :
    (serverConvert reqA envNetworkFail).status = 200 ∧
      isStringVal ((serverConvert reqA envNetworkFail).body.getField "gifUrl") = true ∧
      (serverConvert reqA envNetworkFail).body.getField "metadata" = none :=
  ⟨rfl, rfl, rfl⟩

/-- Claim C7 as amended: in the Cloudinary-backed variants every success
(200) response contains gifUrl (a string), transcription (a string or null),
and a metadata object carrying duration = endTime - startTime together with
startTime, endTime and the original upload size (times as parsed by the
handler, startTime coerced through `|| 0`). -/
theorem cloud_success_response_shape (req : CloudRequest) (env : CloudEnv)
    (hstatus : (cloudConvert req env).1 = 200) :
    isStringVal ((cloudConvert req env).2.getField "gifUrl") = true ∧
      isNullOrStringVal ((cloudConvert req env).2.getField "transcription") = true ∧
      (cloudConvert req env).2.getField "metadata" = some (Json.obj
        [("duration", Json.num ((jsParseFloat req.endTime).getD 0
            - (jsParseFloat req.startTime).getD 0)),
         ("startTime", Json.num ((jsParseFloat req.startTime).getD 0)),
         ("endTime", Json.num ((jsParseFloat req.endTime).getD 0)),
         ("originalSize", Json.num (uploadSizeOf req))]) := by
  cases hfile : req.file with
  | none => simp [cloudConvert, hfile] at hstatus
  | some file =>
      cases het : jsParseFloat req.endTime with
      | none => simp [cloudConvert, hfile, het] at hstatus
      | some et =>
          by_cases hle : et ≤ (jsParseFloat req.startTime).getD 0
          · simp [cloudConvert, hfile, het, hle] at hstatus
          · by_cases hup : env.uploadOk = true
            · rw [cloudConvert_success req env file et hfile het hle hup]
              refine ⟨rfl, ?_, ?_⟩
              · cases cloudTranscription req env with
                | none => rfl
                | some t => rfl
              · rw [getField_metadata]
                simp [Option.getD_some, uploadSizeOf, hfile]
            · have hup2 : env.uploadOk = false := by
                cases h : env.uploadOk
                · rfl
                · exact absurd h hup
              simp [cloudConvert, hfile, het, hle, hup2] at hstatus

/-- A concrete Cloudinary request for the window from second 2 to second 5. -/
def cloudReqPlain : CloudRequest :=
  { file := some { size := 1024 }, startTime := some "2", endTime := some "5",
    includeSubtitles := none }

/-- Cloudinary environment where every external call succeeds. -/
def cloudEnvOk : CloudEnv :=
  { uploadOk := true, publicId := "video-uploads/abc", fetchOk := true, speech := none }

/-- Witness for the amended claim C7: for the window from 2 to 5 the metadata
object reports duration 3. -/
theorem cloud_success_response_shape_witness :
    (cloudConvert cloudReqPlain cloudEnvOk).1 = 200 ∧
      isStringVal ((cloudConvert cloudReqPlain cloudEnvOk).2.getField "gifUrl") = true ∧
      isNullOrStringVal ((cloudConvert cloudReqPlain cloudEnvOk).2.getField "transcription")
        = true ∧
      (cloudConvert cloudReqPlain cloudEnvOk).2.getField "metadata" = some (Json.obj
        [("duration", Json.num 3), ("startTime", Json.num 2),
         ("endTime", Json.num 5), ("originalSize", Json.num 1024)]) := by
  have h := cloud_success_response_shape cloudReqPlain cloudEnvOk (by decide)
  refine ⟨by decide, h.1, h.2.1, ?_⟩
  rw [h.2.2, show jsParseFloat cloudReqPlain.endTime = some 5 from by decide,
    show jsParseFloat cloudReqPlain.startTime = some 2 from by decide]
  norm_num [Option.getD_some, uploadSizeOf, cloudReqPlain]

/-- Claim C9: in the Cloudinary-backed variants a missing or non-numeric
startTime is silently coerced to 0 rather than rejected: a request carrying a
video and a numeric endTime > 0 passes validation and (when the upload
succeeds) is processed over the window from 0 to endTime — the metadata
reports startTime 0 and duration endTime. -/
theorem cloud_startTime_coerced_to_zero (req : CloudRequest) (env : CloudEnv)
    (file : CloudFile) (et : ℚ) (hfile : req.file = some file)
    (hst : jsParseFloat req.startTime = none)
    (het : jsParseFloat req.endTime = some et) (hpos : 0 < et)
    (hupload : env.uploadOk = true) :
    (cloudConvert req env).1 = 200 ∧
      (cloudConvert req env).2.getField "metadata" = some (Json.obj
        [("duration", Json.num et), ("startTime", Json.num 0),
         ("endTime", Json.num et), ("originalSize", Json.num file.size)]) := by
  have hgt : ¬ et ≤ (jsParseFloat req.startTime).getD 0 := by
    rw [hst]
    exact not_le.mpr hpos
  rw [cloudConvert_success req env file et hfile het hgt hupload]
  refine ⟨rfl, ?_⟩
  rw [getField_metadata, hst]
  simp [Option.getD_none, sub_zero]

/-- A Cloudinary request whose startTime field is non-numeric. -/
def cloudReqNoStart : CloudRequest :=
  { file := some { size := 2048 }, startTime := some "abc", endTime := some "5",
    includeSubtitles := none }

/-- Witness for claim C9 at a concrete request and environment. -/
theorem cloud_startTime_coerced_to_zero_witness :
    (cloudConvert cloudReqNoStart cloudEnvOk).1 = 200 ∧
      (cloudConvert cloudReqNoStart cloudEnvOk).2.getField "metadata" = some (Json.obj
        [("duration", Json.num 5), ("startTime", Json.num 0),
         ("endTime", Json.num 5), ("originalSize", Json.num 2048)]) :=
  cloud_startTime_coerced_to_zero cloudReqNoStart cloudEnvOk { size := 2048 } 5
    rfl (by decide) (by decide) (by decide) rfl
